import Mathlib

/-!
# Verification of the Circular Enterprise APIs C++ client SDK

Shallow embedding of the account / certificate-submission client
(`src/utils.cpp`, `src/cep_account.cpp`, `src/ccertificate.cpp`) and proofs
about the claims of its design specification.

C++ `std::string` values are byte strings; we model them as `List Nat`
(each element a byte value `< 256`; hypotheses state the bound where a
theorem needs it).  External collaborators (OpenSSL SHA-256, libsecp256k1,
the HTTP transport and the wall clock) are modelled as explicit parameters:
a `Crypto` structure of abstract functions, an `Except`-valued transport
response passed into each network-touching operation, and an explicit
timestamp / elapsed-time argument.
-/

namespace Circular

/-- A C++ `std::string`: a list of byte values. -/
abbrev Bytes := List Nat

/-- Byte string of an ASCII string literal. -/
def bytes (s : String) : Bytes := s.data.map Char.toNat

/-- `std::tolower` in the C locale, on a byte. -/
def toLowerByte (c : Nat) : Nat := if 65 ≤ c ∧ c ≤ 90 then c + 32 else c

/-- `std::toupper` in the C locale, on a byte (used to state case normalization). -/
def toUpperByte (c : Nat) : Nat := if 97 ≤ c ∧ c ≤ 122 then c - 32 else c

/-- `std::isxdigit` on a byte: `0-9`, `a-f`, `A-F`. -/
def isHexDigitByte (c : Nat) : Bool :=
  (48 ≤ c && c ≤ 57) || (97 ≤ c && c ≤ 102) || (65 ≤ c && c ≤ 70)

/-- Numeric value of a hex digit byte (as `std::stoi` base 16 assigns it). -/
def hexVal (c : Nat) : Nat :=
  if 48 ≤ c ∧ c ≤ 57 then c - 48
  else if 97 ≤ c ∧ c ≤ 102 then c - 87
  else if 65 ≤ c ∧ c ≤ 70 then c - 55
  else 0

/-- Uppercase hex digit byte for a nibble (`std::uppercase << std::hex`). -/
def hexDigitUpper (n : Nat) : Nat := if n < 10 then 48 + n else 55 + n

/-- Lowercase hex digit byte for a nibble (`std::hex`, default case). -/
def hexDigitLower (n : Nat) : Nat := if n < 10 then 48 + n else 87 + n

/-- The prefix strip shared by `hex_fix` and `hex_to_str`
(`s.length() >= 2 && (s.substr(0, 2) == "0x" || s.substr(0, 2) == "0X")`). -/
def strip0x (s : Bytes) : Bytes :=
  if s.take 2 = bytes "0x" ∨ s.take 2 = bytes "0X" then s.drop 2 else s

/-- `hex_fix` (src/utils.cpp:41-64): empty stays empty; strip one leading
`0x`/`0X`; lowercase; left-pad one `'0'` if the length is odd. -/
def hex_fix (s : Bytes) : Bytes :=
  if s = [] then []
  else if ((strip0x s).map toLowerByte).length % 2 = 1 then
    48 :: (strip0x s).map toLowerByte
  else (strip0x s).map toLowerByte

/-- `str_to_hex` (src/utils.cpp:69-75): uppercase two-digit hex per byte. -/
def str_to_hex (s : Bytes) : Bytes :=
  s.flatMap (fun b => [hexDigitUpper (b / 16), hexDigitUpper (b % 16)])

/-- The decoding loop of `hex_to_str` (src/utils.cpp:106-110): decode
byte-pairs in order.  The singleton case mirrors `substr(i, 2)` returning a
single character on odd input (unreachable after the even-length check). -/
def decodePairs : Bytes → Bytes
  | [] => []
  | [c] => [hexVal c]
  | c1 :: c2 :: rest => (hexVal c1 * 16 + hexVal c2) :: decodePairs rest

/-- `hex_to_str` (src/utils.cpp:80-113): empty stays empty; strip one
leading `0x`/`0X`; reject odd length or any non-hex-digit character by
returning the empty string; otherwise decode byte-pairs. -/
def hex_to_str (s : Bytes) : Bytes :=
  if s = [] then []
  else if (strip0x s).length % 2 = 1 then []
  else if (strip0x s).all isHexDigitByte then decodePairs (strip0x s)
  else []

/-- `bytes_to_hex` (src/cep_account.cpp:42-48): lowercase two-digit hex per
byte. -/
def bytes_to_hex (s : Bytes) : Bytes :=
  s.flatMap (fun b => [hexDigitLower (b / 16), hexDigitLower (b % 16)])

/-- `std::isspace` in the C locale, on a byte. -/
def isSpaceByte (c : Nat) : Bool :=
  c = 32 || c = 9 || c = 10 || c = 11 || c = 12 || c = 13

/-- Longest hex-digit run at the front of a byte string, with its value
(`none` when the first byte is not a hex digit). -/
def hexRun : Bytes → Nat → Option Nat
  | [], acc => some acc
  | c :: rest, acc =>
    if isHexDigitByte c then hexRun rest (acc * 16 + hexVal c) else some acc

/-- Longest decimal-digit run at the front of a byte string, with its value. -/
def decRun : Bytes → Nat → Option Nat
  | [], acc => some acc
  | c :: rest, acc =>
    if 48 ≤ c ∧ c ≤ 57 then decRun rest (acc * 10 + (c - 48)) else some acc

/-- `std::stoi(s, nullptr, 16)`: skip leading whitespace, accept one sign,
then an optional `0x`/`0X` followed by hex digits; the longest valid prefix
is converted; `none` models the `std::invalid_argument` exception thrown
when no digit can be consumed.  (Only ever applied to two-byte strings
here, so `int` overflow cannot occur.) -/
def stoi16 (s : Bytes) : Option Int :=
  let s1 := s.dropWhile isSpaceByte
  let signAndRest : Int × Bytes :=
    match s1 with
    | 45 :: rest => (-1, rest)
    | 43 :: rest => (1, rest)
    | _ => (1, s1)
  let body : Bytes :=
    match signAndRest.2 with
    | 48 :: 120 :: c :: rest => if isHexDigitByte c then c :: rest else 48 :: 120 :: c :: rest
    | 48 :: 88 :: c :: rest => if isHexDigitByte c then c :: rest else 48 :: 88 :: c :: rest
    | l => l
  match body with
  | c :: rest =>
    if isHexDigitByte c then
      match hexRun rest (hexVal c) with
      | some v => some (signAndRest.1 * (v : Int))
      | none => none
    else none
  | [] => none

/-- `std::stoll(s)` (base 10): skip leading whitespace, accept one sign,
then decimal digits; `none` models both `std::invalid_argument` (no digit)
and `std::out_of_range` (value outside the `long long` range). -/
def stoll10 (s : Bytes) : Option Int :=
  let s1 := s.dropWhile isSpaceByte
  let signAndRest : Int × Bytes :=
    match s1 with
    | 45 :: rest => (-1, rest)
    | 43 :: rest => (1, rest)
    | _ => (1, s1)
  match signAndRest.2 with
  | c :: rest =>
    if 48 ≤ c ∧ c ≤ 57 then
      match decRun rest (c - 48) with
      | some v =>
        let value : Int := signAndRest.1 * (v : Int)
        if value < -(2 ^ 63) ∨ 2 ^ 63 - 1 < value then none else some value
      | none => none
    else none
  | [] => none

/-- The pair loop of `hex_to_bytes` (src/cep_account.cpp:31-35): each
`substr(i, 2)` chunk goes through `std::stoi(·, nullptr, 16)` and is cast
to `uint8_t`; a thrown `std::invalid_argument` (`none`) aborts the whole
conversion. -/
def stoiPairs : Bytes → Option Bytes
  | [] => some []
  | [c] =>
    match stoi16 [c] with
    | some v => some [((v.emod 256).toNat)]
    | none => none
  | c1 :: c2 :: rest =>
    match stoi16 [c1, c2] with
    | some v =>
      match stoiPairs rest with
      | some bs => some (((v.emod 256).toNat) :: bs)
      | none => none
    | none => none

/-- `hex_to_bytes` (src/cep_account.cpp:27-37): `hex_fix` the input, then
convert two-character chunks with `std::stoi`; `none` models the exception
that escapes to the `try`/`catch` of the caller. -/
def hex_to_bytes (hex : Bytes) : Option Bytes :=
  stoiPairs (hex_fix hex)

/-- An `nlohmann::json` value, restricted to the shapes this client builds
and inspects (no arrays or floating-point numbers are ever constructed or
branched on in the modelled code paths; a non-integer number can be
represented by `other`, for which `is_number_integer()` is false).
`nlohmann::json` keeps object keys sorted (`std::map`); every object
literal in this file lists its keys in that sorted order. -/
inductive Json where
  | null : Json
  | bool (b : Bool) : Json
  | int (n : Int) : Json
  | str (s : Bytes) : Json
  | obj (fields : List (Bytes × Json)) : Json
  | other : Json

/-- `json::contains(key)`: true only on objects holding the key. -/
def Json.containsKey : Json → Bytes → Bool
  | .obj fields, k => fields.any (fun p => p.1 = k)
  | _, _ => false

/-- `json::operator[](key)` for reading (always used after a `contains`
guard in the modelled code): the value at the key, `null` otherwise. -/
def Json.get : Json → Bytes → Json
  | .obj fields, k =>
    match fields.find? (fun p => p.1 = k) with
    | some p => p.2
    | none => .null
  | _, _ => .null

/-- `json::is_number_integer()`. -/
def Json.isInt : Json → Bool
  | .int _ => true
  | _ => false

/-- `json::is_string()`. -/
def Json.isStr : Json → Bool
  | .str _ => true
  | _ => false

/-- `json::get<std::int64_t>()` on an integer value (also the source of
`int result_code = ...` before its `int` truncation). -/
def Json.getInt : Json → Int
  | .int n => n
  | _ => 0

/-- `json::get<std::string>()` on a string value. -/
def Json.getStr : Json → Bytes
  | .str s => s
  | _ => []

/-- `static_cast<int>` on a 64-bit value: wrap into `[-2^31, 2^31)`
(`int result_code = data["Result"]`). -/
def wrap32 (n : Int) : Int := (n + 2 ^ 31).emod (2 ^ 32) - 2 ^ 31

/-- `nlohmann::json` escaping of one byte inside a string dump: `"`, `\`,
and the named control characters get two-character escapes, other control
characters a `\u00XX` escape, and everything else passes through.  (The
dumped strings in the modelled paths are ASCII, so the UTF-8 handling of
`dump()` never intervenes.) -/
def escapeByte (c : Nat) : Bytes :=
  if c = 34 then [92, 34]
  else if c = 92 then [92, 92]
  else if c = 8 then [92, 98]
  else if c = 12 then [92, 102]
  else if c = 10 then [92, 110]
  else if c = 13 then [92, 114]
  else if c = 9 then [92, 116]
  else if c < 32 then
    [92, 117, 48, 48, hexDigitLower (c / 16), hexDigitLower (c % 16)]
  else [c]

/-- Escaped body of a dumped JSON string. -/
def escapeBytes (s : Bytes) : Bytes := s.flatMap escapeByte

mutual

/-- `json::dump()`: compact serialization, object keys in stored (sorted)
order.  `other` never occurs in a dumped value in the modelled paths. -/
def Json.dump : Json → Bytes
  | .null => bytes "null"
  | .bool true => bytes "true"
  | .bool false => bytes "false"
  | .int n => bytes (toString n)
  | .str s => 34 :: (escapeBytes s ++ [34])
  | .obj fields => 123 :: (Json.dumpFields fields ++ [125])
  | .other => []

/-- Comma-separated `"key":value` items of an object dump. -/
def Json.dumpFields : List (Bytes × Json) → Bytes
  | [] => []
  | [(k, v)] => (34 :: (escapeBytes k ++ [34, 58])) ++ Json.dump v
  | (k, v) :: p :: rest =>
    ((34 :: (escapeBytes k ++ [34, 58])) ++ Json.dump v) ++
      44 :: Json.dumpFields (p :: rest)

end

/-- Library version constant (include/circular/circular_enterprise_apis.hpp). -/
def LIB_VERSION : Bytes := bytes "1.0.13"

/-- Default blockchain identifier constant. -/
def DEFAULT_CHAIN : Bytes :=
  bytes "0x8a20baa40c45dc5055aeb26197c203e576ef389d9acb171bd62da11dc5ad72b2"

/-- Default NAG URL constant. -/
def DEFAULT_NAG : Bytes := bytes "https://nag.circularlabs.io/NAG.php?cep="

/-- Default network-discovery URL constant. -/
def DEFAULT_NETWORK_URL : Bytes :=
  bytes "https://circularlabs.io/network/getNAG?network="

/-- The `CepAccount` state (include/circular/cep_account.hpp): public fields
plus the private `info_` / `last_error_` slots. -/
structure CepAccount where
  address : Bytes
  public_key : Bytes
  code_version : Bytes
  nag_url : Bytes
  network_node : Bytes
  blockchain : Bytes
  latest_tx_id : Bytes
  nonce : Int
  interval_sec : Int
  network_url : Bytes
  info : Option Json
  last_error : Option Bytes

/-- The `CepAccount` constructor (src/cep_account.cpp:133-147). -/
def CepAccount.init : CepAccount where
  address := []
  public_key := []
  code_version := LIB_VERSION
  nag_url := DEFAULT_NAG
  network_node := []
  blockchain := DEFAULT_CHAIN
  latest_tx_id := []
  nonce := 0
  interval_sec := 2
  network_url := DEFAULT_NETWORK_URL
  info := none
  last_error := none

/-- `CepAccount::open` (src/cep_account.cpp:149-156).  (`open` is a Lean
keyword, hence the longer name.) -/
def open_account (st : CepAccount) (account_address : Bytes) : CepAccount × Bool :=
  if account_address = [] then
    ({ st with last_error := some (bytes "invalid address format") }, false)
  else ({ st with address := account_address }, true)

/-- `CepAccount::close` (src/cep_account.cpp:158-168). -/
def close (st : CepAccount) : CepAccount :=
  { st with
    address := []
    public_key := []
    info := none
    nag_url := []
    network_node := []
    blockchain := []
    latest_tx_id := []
    nonce := 0
    interval_sec := 0 }

/-- `CepAccount::set_network` (src/cep_account.cpp:170-182); the result of
the `get_nag` discovery call is passed in explicitly. -/
def set_network (st : CepAccount) (network : Bytes)
    (nagResult : Except Bytes Bytes) : CepAccount × Bool :=
  match nagResult with
  | .ok url => ({ st with nag_url := url, network_node := network }, true)
  | .error e => ({ st with last_error := some e }, false)

/-- `CepAccount::update_account` (src/cep_account.cpp:196-248); the
`post_json` transport result is passed in explicitly. -/
def update_account (st : CepAccount) (resp : Except Bytes Json) :
    CepAccount × Bool :=
  if st.address = [] then
    ({ st with last_error := some (bytes "Account not open") }, false)
  else
    match resp with
    | .error e => ({ st with last_error := some e }, false)
    | .ok data =>
      if data.containsKey (bytes "Result") && (data.get (bytes "Result")).isInt then
        if wrap32 (data.get (bytes "Result")).getInt = 200 then
          if data.containsKey (bytes "Response") &&
              (data.get (bytes "Response")).containsKey (bytes "Nonce") &&
              ((data.get (bytes "Response")).get (bytes "Nonce")).isInt then
            ({ st with
                nonce := ((data.get (bytes "Response")).get (bytes "Nonce")).getInt + 1 },
              true)
          else
            ({ st with last_error := some (bytes "failed to decode nonce response") }, false)
        else if wrap32 (data.get (bytes "Result")).getInt = 114 then
          ({ st with last_error := some (bytes "Rejected: Invalid Blockchain") }, false)
        else if wrap32 (data.get (bytes "Result")).getInt = 115 then
          ({ st with last_error := some (bytes "Rejected: Insufficient balance") }, false)
        else if data.containsKey (bytes "Response") && (data.get (bytes "Response")).isStr then
          ({ st with
              last_error := some
                (bytes "failed to update account: " ++ (data.get (bytes "Response")).getStr) },
            false)
        else
          ({ st with
              last_error := some (bytes "failed to update account: unknown error response") },
            false)
      else
        ({ st with last_error := some (bytes "failed to get result from response") }, false)

/-- The external cryptographic primitives used by `sign_data`: OpenSSL's
SHA-256 and libsecp256k1's context creation, key verification, signing and
DER serialization, abstracted as pure functions. -/
structure Crypto where
  sha256 : Bytes → Bytes
  ctx_ok : Bool
  seckey_verify : Bytes → Bool
  ecdsa_sign : Bytes → Bytes → Option Bytes
  serialize_der : Bytes → Option Bytes

/-- `CepAccount::sign_data` (src/cep_account.cpp:250-313).  The `none` leg
of `hex_to_bytes` models the `std::invalid_argument` thrown by `std::stoi`
and caught by the surrounding `try`; its `e.what()` text is
implementation-defined and modelled as `"stoi"`. -/
def sign_data (C : Crypto) (st : CepAccount) (message private_key_hex : Bytes) :
    Except Bytes Bytes :=
  if st.address = [] then .error (bytes "account is not open")
  else
    match hex_to_bytes private_key_hex with
    | none => .error (bytes "signing error: stoi")
    | some kb =>
      if kb.length ≠ 32 then .error (bytes "private key must be 32 bytes long")
      else if !C.ctx_ok then .error (bytes "failed to create secp256k1 context")
      else if !C.seckey_verify kb then .error (bytes "invalid private key")
      else
        match C.ecdsa_sign (C.sha256 message) kb with
        | none => .error (bytes "failed to sign message")
        | some sig =>
          match C.serialize_der sig with
          | none => .error (bytes "failed to serialize signature")
          | some der => .ok (bytes_to_hex der)

/-- The certificate payload object (src/cep_account.cpp:323-326); nlohmann
stores keys sorted, and `"Action" < "Data"`. -/
def payloadObject (pdata : Bytes) : Json :=
  .obj [(bytes "Action", .str (bytes "CP_CERTIFICATE")),
        (bytes "Data", .str (str_to_hex pdata))]

/-- `payload` in `submit_certificate` (src/cep_account.cpp:327): hex of the
dumped payload JSON. -/
def certificate_payload (pdata : Bytes) : Bytes :=
  str_to_hex (Json.dump (payloadObject pdata))

/-- `str_to_hash` in `submit_certificate` (src/cep_account.cpp:331-332). -/
def str_to_hash (st : CepAccount) (pdata ts : Bytes) : Bytes :=
  hex_fix st.blockchain ++ hex_fix st.address ++ hex_fix st.address ++
    certificate_payload pdata ++ bytes (toString st.nonce) ++ ts

/-- `id` in `submit_certificate` (src/cep_account.cpp:334-335): lowercase
hex of the SHA-256 of `str_to_hash`. -/
def computeTxId (C : Crypto) (st : CepAccount) (pdata ts : Bytes) : Bytes :=
  bytes_to_hex (C.sha256 (str_to_hash st pdata ts))

/-- The submission request body (src/cep_account.cpp:345-356), keys in
nlohmann's sorted order. -/
def submit_request (C : Crypto) (st : CepAccount) (pdata ts signature : Bytes) : Json :=
  .obj [(bytes "Blockchain", .str (hex_fix st.blockchain)),
        (bytes "From", .str (hex_fix st.address)),
        (bytes "ID", .str (computeTxId C st pdata ts)),
        (bytes "Nonce", .str (bytes (toString st.nonce))),
        (bytes "Payload", .str (certificate_payload pdata)),
        (bytes "Signature", .str signature),
        (bytes "Timestamp", .str ts),
        (bytes "To", .str (hex_fix st.address)),
        (bytes "Type", .str (bytes "C_TYPE_CERTIFICATE")),
        (bytes "Version", .str st.code_version)]

/-- `CepAccount::submit_certificate` (src/cep_account.cpp:315-385); the
timestamp captured from the clock and the `post_json` transport result are
passed in explicitly.  Note the final fall-through (line 383): a response
without an integer `Result` returns `false` without touching
`last_error_`. -/
def submit_certificate (C : Crypto) (ts : Bytes) (st : CepAccount)
    (pdata private_key_hex : Bytes) (resp : Except Bytes Json) :
    CepAccount × Bool :=
  if st.address = [] then
    ({ st with last_error := some (bytes "Account is not open") }, false)
  else
    match sign_data C st (computeTxId C st pdata ts) private_key_hex with
    | .error e =>
      ({ st with last_error := some (bytes "failed to sign data: " ++ e) }, false)
    | .ok _signature =>
      match resp with
      | .error e => ({ st with last_error := some e }, false)
      | .ok data =>
        if data.containsKey (bytes "Result") && (data.get (bytes "Result")).isInt then
          if wrap32 (data.get (bytes "Result")).getInt = 200 then
            ({ st with
                latest_tx_id := computeTxId C st pdata ts
                nonce := st.nonce + 1 }, true)
          else if data.containsKey (bytes "Response") &&
              (data.get (bytes "Response")).isStr then
            ({ st with
                last_error := some
                  (bytes "certificate submission failed: " ++
                    (data.get (bytes "Response")).getStr) },
              false)
          else
            ({ st with
                last_error := some
                  (bytes "certificate submission failed with non-200 result code") },
              false)
        else (st, false)

/-- `CepAccount::get_transaction_by_id` (src/cep_account.cpp:412-434); the
transport result is passed in explicitly and forwarded unchanged once the
`nag_url` guard passes. -/
def get_transaction_by_id (st : CepAccount) (resp : Except Bytes Json) :
    Except Bytes Json :=
  if st.nag_url = [] then .error (bytes "network is not set") else resp

/-- `CepAccount::get_transaction` (src/cep_account.cpp:387-410). -/
def get_transaction (st : CepAccount) (block_id : Bytes)
    (resp : Except Bytes Json) : CepAccount × Option Json :=
  if block_id = [] then
    ({ st with last_error := some (bytes "blockID cannot be empty") }, none)
  else
    match stoll10 block_id with
    | none => ({ st with last_error := some (bytes "invalid blockID") }, none)
    | some _ =>
      match get_transaction_by_id st resp with
      | .ok j => (st, some j)
      | .error e =>
        ({ st with
            last_error := some (bytes "failed to get transaction by ID: " ++ e) },
          none)

/-- How `get_transaction_outcome` terminated.  `exhausted` is an artifact
of the finite poll-result list: the modelled run consumed every supplied
poll without reaching an exit condition (the C++ loop would keep going). -/
inductive PollExit where
  | success (j : Json) : PollExit
  | timedOut : PollExit
  | noNetwork : PollExit
  | exhausted : PollExit

/-- The per-iteration response inspection of `get_transaction_outcome`
(src/cep_account.cpp:456-471): `some response` exactly when `Result` is the
integer 200 and `Response.Status` is a string other than `"Pending"`. -/
def pollCheck (data : Json) : Option Json :=
  if data.containsKey (bytes "Result") && (data.get (bytes "Result")).isInt then
    if wrap32 (data.get (bytes "Result")).getInt = 200 then
      if data.containsKey (bytes "Response") then
        if (data.get (bytes "Response")).containsKey (bytes "Status") &&
            ((data.get (bytes "Response")).get (bytes "Status")).isStr then
          if ((data.get (bytes "Response")).get (bytes "Status")).getStr ≠
              bytes "Pending" then
            some (data.get (bytes "Response"))
          else none
        else none
      else none
    else none
  else none

/-- The polling loop of `get_transaction_outcome` (src/cep_account.cpp:
447-474).  Each supplied poll carries the elapsed time observed at the top
of that iteration and the transport result of that iteration's
`get_transaction_by_id` call. -/
def outcomeLoop (st : CepAccount) (timeout : Int) :
    List (Int × Except Bytes Json) → CepAccount × PollExit
  | [] => (st, .exhausted)
  | (elapsed, r) :: rest =>
    if timeout < elapsed then
      ({ st with
          last_error := some
            (bytes "timeout exceeded while waiting for transaction outcome") },
        .timedOut)
    else
      match get_transaction_by_id st r with
      | .ok data =>
        match pollCheck data with
        | some response => (st, .success response)
        | none => outcomeLoop st timeout rest
      | .error _ => outcomeLoop st timeout rest

/-- `CepAccount::get_transaction_outcome` (src/cep_account.cpp:436-476). -/
def get_transaction_outcome (st : CepAccount) (timeout : Int)
    (polls : List (Int × Except Bytes Json)) : CepAccount × PollExit :=
  if st.nag_url = [] then
    ({ st with last_error := some (bytes "network is not set") }, .noNetwork)
  else outcomeLoop st timeout polls

/-- `CCertificate` (include/circular/ccertificate.hpp). -/
structure CCertificate where
  data_ : Bytes
  previous_tx_id : Bytes
  previous_block : Bytes
  version : Bytes

/-- The `CCertificate` constructor (src/ccertificate.cpp:8-14). -/
def CCertificate.init : CCertificate where
  data_ := []
  previous_tx_id := []
  previous_block := []
  version := LIB_VERSION

/-- `CCertificate::set_data` (src/ccertificate.cpp:18-20). -/
def set_data (c : CCertificate) (data : Bytes) : CCertificate :=
  { c with data_ := str_to_hex data }

/-- `CCertificate::get_data` (src/ccertificate.cpp:24-26). -/
def get_data (c : CCertificate) : Bytes := hex_to_str c.data_

/-- One public account operation together with the external inputs
(discovery result, transport responses, poll trace) consumed by its run:
the operations named by the nonce-monotonicity claim. -/
inductive AccOp where
  | openA (addr : Bytes) : AccOp
  | setNetwork (network : Bytes) (nagResult : Except Bytes Bytes) : AccOp
  | updateAccount (resp : Except Bytes Json) : AccOp
  | submitCert (pdata private_key_hex : Bytes) (resp : Except Bytes Json) : AccOp
  | getTx (block_id : Bytes) (resp : Except Bytes Json) : AccOp
  | getOutcome (timeout : Int) (polls : List (Int × Except Bytes Json)) : AccOp

/-- State reached after one account operation. -/
def step (C : Crypto) (ts : Bytes) (st : CepAccount) : AccOp → CepAccount
  | .openA addr => (open_account st addr).1
  | .setNetwork network r => (set_network st network r).1
  | .updateAccount resp => (update_account st resp).1
  | .submitCert pdata key resp => (submit_certificate C ts st pdata key resp).1
  | .getTx b resp => (get_transaction st b resp).1
  | .getOutcome t polls => (get_transaction_outcome st t polls).1

/-- State reached after a sequence of account operations. -/
def runOps (C : Crypto) (ts : Bytes) (st : CepAccount) (ops : List AccOp) :
    CepAccount :=
  ops.foldl (step C ts) st

/-- Transaction-ID construction written from the spec's words (§3
TransactionRecord): lowercase hex SHA-256 of
`hexfix(blockchain_id) || hexfix(address) || hexfix(address) ||
payload_hex || decimal(nonce) || timestamp` where `payload_hex` is the hex
encoding of the JSON serialization of
`{ Action: "CP_CERTIFICATE", Data: hex(data) }`. -/
def spec_payload_hex (data : Bytes) : Bytes :=
  str_to_hex (bytes "\x7b\"Action\":\"CP_CERTIFICATE\",\"Data\":\"" ++
    str_to_hex data ++ bytes "\"\x7d")

/-- The spec-side transaction ID (see `spec_payload_hex`). -/
def spec_tx_id (sha : Bytes → Bytes) (blockchain_id address data : Bytes)
    (nonce : Int) (timestamp : Bytes) : Bytes :=
  bytes_to_hex (sha (hex_fix blockchain_id ++ hex_fix address ++
    hex_fix address ++ spec_payload_hex data ++ bytes (toString nonce) ++ timestamp))

/-- A concrete stand-in for the external crypto libraries, used in witness
instantiations. -/
def sampleCrypto : Crypto where
  sha256 := fun _ => List.replicate 32 0
  ctx_ok := true
  seckey_verify := fun _ => true
  ecdsa_sign := fun _ _ => some [1, 2, 3]
  serialize_der := fun s => some s

/-- A 64-character all-zero hex key (decodes to 32 zero bytes). -/
def zeroKey : Bytes := List.replicate 64 48

/-- A concrete opened, network-bound account used in witness
instantiations. -/
def sampleAccount : CepAccount :=
  { CepAccount.init with address := bytes "0xabc", network_node := bytes "testnet" }

-- Sanity checks on concrete values.
example : (submit_certificate sampleCrypto (bytes "2025:01:01-00:00:00")
    sampleAccount (bytes "hi") zeroKey (.ok (.obj [(bytes "Result", .int 200)]))).2
    = true := by rfl
example : (submit_certificate sampleCrypto (bytes "2025:01:01-00:00:00")
    sampleAccount (bytes "hi") (bytes "00ff") (.ok (.obj [(bytes "Result", .int 200)]))).2
    = false := by rfl
example : (update_account sampleAccount
    (.ok (.obj [(bytes "Response", .obj [(bytes "Nonce", .int 7)]),
                (bytes "Result", .int 200)]))).1.nonce = 8 := by rfl
example : certificate_payload (bytes "hi") = spec_payload_hex (bytes "hi") := by decide

/-! ## Helper lemmas: bytes and the hex codec -/

theorem toLowerByte_idem (c : Nat) : toLowerByte (toLowerByte c) = toLowerByte c := by
  unfold toLowerByte
  split
  · rw [if_neg (by omega)]
  · rfl

theorem map_fixed {f : Nat → Nat} :
    ∀ l : List Nat, (∀ c ∈ l, f c = c) → l.map f = l := by
  intro l h
  induction l with
  | nil => rfl
  | cons c rest ih =>
    simp only [List.map_cons, List.cons.injEq]
    exact ⟨h c (by simp), ih fun x hx => h x (by simp [hx])⟩

theorem mem_hex_fix_lower {s : Bytes} {c : Nat} (hc : c ∈ hex_fix s) :
    toLowerByte c = c := by
  simp only [hex_fix] at hc
  split at hc
  · simp at hc
  · split at hc
    · rcases List.mem_cons.mp hc with h | h
      · subst h; rfl
      · rcases List.mem_map.mp h with ⟨a, _, ha⟩
        rw [← ha]; exact toLowerByte_idem a
    · rcases List.mem_map.mp hc with ⟨a, _, ha⟩
      rw [← ha]; exact toLowerByte_idem a

theorem hex_fix_length_even (s : Bytes) : (hex_fix s).length % 2 = 0 := by
  simp only [hex_fix]
  split
  · rfl
  · split <;> rename_i h
    · simp only [List.length_cons]; omega
    · omega

theorem hexDigitUpper_range {n : Nat} (hn : n < 16) :
    (48 ≤ hexDigitUpper n ∧ hexDigitUpper n ≤ 57) ∨
      (65 ≤ hexDigitUpper n ∧ hexDigitUpper n ≤ 70) := by
  unfold hexDigitUpper
  split <;> omega

theorem mem_str_to_hex_range {x : Bytes} (hx : ∀ b ∈ x, b < 256) :
    ∀ c ∈ str_to_hex x,
      (48 ≤ c ∧ c ≤ 57) ∨ (65 ≤ c ∧ c ≤ 70) := by
  intro c hc
  unfold str_to_hex at hc
  rcases List.mem_flatMap.mp hc with ⟨b, hb, hcb⟩
  have hb256 := hx b hb
  have h1 : b / 16 < 16 := by omega
  have h2 : b % 16 < 16 := Nat.mod_lt _ (by omega)
  simp only [List.mem_cons, List.mem_singleton] at hcb
  rcases hcb with h | h | h
  · rw [h]; exact hexDigitUpper_range h1
  · rw [h]; exact hexDigitUpper_range h2
  · simp at h

theorem str_to_hex_length (x : Bytes) : (str_to_hex x).length = 2 * x.length := by
  induction x with
  | nil => rfl
  | cons b rest ih =>
    simp only [str_to_hex, List.flatMap_cons] at ih ⊢
    simp only [List.length_append, List.length_cons, List.length_nil, ih]
    omega

theorem hexVal_hexDigitUpper {n : Nat} (hn : n < 16) :
    hexVal (hexDigitUpper n) = n := by
  unfold hexVal hexDigitUpper
  repeat' split
  all_goals omega

theorem isHexDigitByte_hexDigitUpper {n : Nat} (hn : n < 16) :
    isHexDigitByte (hexDigitUpper n) = true := by
  unfold isHexDigitByte hexDigitUpper
  repeat' split
  all_goals simp
  all_goals omega

theorem str_to_hex_cons (b : Nat) (x : Bytes) :
    str_to_hex (b :: x) =
      hexDigitUpper (b / 16) :: hexDigitUpper (b % 16) :: str_to_hex x := rfl

theorem decodePairs_cons2 (c1 c2 : Nat) (r : Bytes) :
    decodePairs (c1 :: c2 :: r) = (hexVal c1 * 16 + hexVal c2) :: decodePairs r := rfl

theorem isHexDigitByte_of_range {c : Nat}
    (h : (48 ≤ c ∧ c ≤ 57) ∨ (65 ≤ c ∧ c ≤ 70)) : isHexDigitByte c = true := by
  unfold isHexDigitByte
  simp only [Bool.or_eq_true, Bool.and_eq_true, decide_eq_true_eq]
  omega

theorem hexVal_lt_16 (c : Nat) : hexVal c < 16 := by
  unfold hexVal
  repeat' split
  all_goals omega

theorem hexDigitUpper_hexVal {c : Nat} (h : isHexDigitByte c = true) :
    hexDigitUpper (hexVal c) = toUpperByte c := by
  unfold isHexDigitByte at h
  simp only [Bool.or_eq_true, Bool.and_eq_true, decide_eq_true_eq] at h
  unfold hexDigitUpper hexVal toUpperByte
  repeat' split
  all_goals omega

theorem decodePairs_str_to_hex {x : Bytes} (hx : ∀ b ∈ x, b < 256) :
    decodePairs (str_to_hex x) = x := by
  induction x with
  | nil => rfl
  | cons b rest ih =>
    have hb : b < 256 := hx b (by simp)
    have h1 : b / 16 < 16 := by omega
    have h2 : b % 16 < 16 := Nat.mod_lt _ (by omega)
    rw [str_to_hex_cons, decodePairs_cons2, hexVal_hexDigitUpper h1,
      hexVal_hexDigitUpper h2, ih fun a ha => hx a (by simp [ha])]
    congr 1
    omega

theorem strip0x_str_to_hex {x : Bytes} (hx : ∀ b ∈ x, b < 256) :
    strip0x (str_to_hex x) = str_to_hex x := by
  unfold strip0x
  rw [if_neg]
  rintro (h | h)
  · have h120 : (120 : Nat) ∈ str_to_hex x :=
      List.take_subset 2 _ (by rw [h]; decide)
    have := mem_str_to_hex_range hx 120 h120
    omega
  · have h88 : (88 : Nat) ∈ str_to_hex x :=
      List.take_subset 2 _ (by rw [h]; decide)
    have := mem_str_to_hex_range hx 88 h88
    omega

theorem str_to_hex_all_hex {x : Bytes} (hx : ∀ b ∈ x, b < 256) :
    (str_to_hex x).all isHexDigitByte = true := by
  rw [List.all_eq_true]
  intro c hc
  exact isHexDigitByte_of_range (mem_str_to_hex_range hx c hc)

/-- Round trip, decode after encode (shared by the codec law and the
certificate get-after-set claim). -/
theorem hex_to_str_str_to_hex {x : Bytes} (hx : ∀ b ∈ x, b < 256) :
    hex_to_str (str_to_hex x) = x := by
  rcases hxe : x with _ | ⟨b, rest⟩
  · rfl
  · subst hxe
    have hne : str_to_hex (b :: rest) ≠ [] := by rw [str_to_hex_cons]; simp
    have hlen : (str_to_hex (b :: rest)).length % 2 = 0 := by
      rw [str_to_hex_length]; omega
    unfold hex_to_str
    rw [if_neg hne, strip0x_str_to_hex hx, if_neg (by omega),
      if_pos (str_to_hex_all_hex hx), decodePairs_str_to_hex hx]

/-- Round trip, encode after decode, on the stripped/validated digits. -/
theorem str_to_hex_decodePairs :
    ∀ h : Bytes, h.length % 2 = 0 → (∀ c ∈ h, isHexDigitByte c = true) →
      str_to_hex (decodePairs h) = h.map toUpperByte
  | [], _, _ => rfl
  | [_], he, _ => by simp at he
  | c1 :: c2 :: rest, he, hx => by
    have hx1 : isHexDigitByte c1 = true := hx c1 (by simp)
    have hx2 : isHexDigitByte c2 = true := hx c2 (by simp)
    have hv1 : hexVal c1 < 16 := hexVal_lt_16 c1
    have hv2 : hexVal c2 < 16 := hexVal_lt_16 c2
    have ih := str_to_hex_decodePairs rest
      (by simp only [List.length_cons] at he; omega)
      (fun c hc => hx c (by simp [hc]))
    rw [decodePairs_cons2, str_to_hex_cons, ih]
    have hdiv : (hexVal c1 * 16 + hexVal c2) / 16 = hexVal c1 := by omega
    have hmod : (hexVal c1 * 16 + hexVal c2) % 16 = hexVal c2 := by omega
    rw [hdiv, hmod, hexDigitUpper_hexVal hx1, hexDigitUpper_hexVal hx2]
    rfl

theorem strip0x_of_all_hex {h : Bytes} (hx : ∀ c ∈ h, isHexDigitByte c = true) :
    strip0x h = h := by
  unfold strip0x
  rw [if_neg]
  rintro (ht | ht)
  · have h120 : (120 : Nat) ∈ h := List.take_subset 2 _ (by rw [ht]; decide)
    have := hx 120 h120
    simp [isHexDigitByte] at this
  · have h88 : (88 : Nat) ∈ h := List.take_subset 2 _ (by rw [ht]; decide)
    have := hx 88 h88
    simp [isHexDigitByte] at this

/-- Round trip, encode after decode: an even-length all-hex-digit string
comes back uppercased. -/
theorem str_to_hex_hex_to_str {h : Bytes} (he : h.length % 2 = 0)
    (hx : ∀ c ∈ h, isHexDigitByte c = true) :
    str_to_hex (hex_to_str h) = h.map toUpperByte := by
  rcases hh : h with _ | ⟨c, rest⟩
  · rfl
  · subst hh
    unfold hex_to_str
    rw [if_neg (by simp), strip0x_of_all_hex hx, if_neg (by omega),
      if_pos (List.all_eq_true.mpr fun c hc => hx c hc)]
    exact str_to_hex_decodePairs _ he hx

/-! ## Claims C6, C7, C10: the hex codec and the certificate container -/

/-- C6 counterexample: `hex_fix` is not idempotent on the input `"x"`:
`hex_fix "x" = "0x"` (lowercase, then left-pad to even length) but
`hex_fix "0x" = ""` (the pad manufactured a `0x` prefix, which the second
application strips). -/
theorem c6_hex_fix_not_idempotent_on_x :
    hex_fix (hex_fix (bytes "x")) ≠ hex_fix (bytes "x") := by decide

/-- C6 (amended): `hex_fix` is idempotent on every input string whose
`hex_fix` image does not begin with `"0x"` (the image is already
lowercase and of even length, so only a manufactured `0x` prefix can make
a second application differ). -/
theorem c6_hex_fix_idempotent_unless_0x (s : Bytes)
    (h : (hex_fix s).take 2 ≠ bytes "0x") :
    hex_fix (hex_fix s) = hex_fix s := by
  by_cases ht : hex_fix s = []
  · rw [ht]; rfl
  · have hstrip : strip0x (hex_fix s) = hex_fix s := by
      unfold strip0x
      rw [if_neg]
      rintro (hx | hx)
      · exact h hx
      · have h88 : (88 : Nat) ∈ hex_fix s :=
          List.take_subset 2 _ (by rw [hx]; decide)
        have := mem_hex_fix_lower h88
        simp [toLowerByte] at this
    have hmap : (hex_fix s).map toLowerByte = hex_fix s :=
      map_fixed _ fun c hc => mem_hex_fix_lower hc
    have heven := hex_fix_length_even s
    show (if hex_fix s = [] then []
      else if ((strip0x (hex_fix s)).map toLowerByte).length % 2 = 1 then
        48 :: (strip0x (hex_fix s)).map toLowerByte
      else (strip0x (hex_fix s)).map toLowerByte) = hex_fix s
    rw [if_neg ht, hstrip, hmap, if_neg (by omega)]

/-- C6 amended-claim witness at the concrete input `"0xAB1"`. -/
theorem c6_witness :
    hex_fix (hex_fix (bytes "0xAB1")) = hex_fix (bytes "0xAB1") :=
  c6_hex_fix_idempotent_unless_0x (bytes "0xAB1") (by decide)

/-- C7: `hex_to_str (str_to_hex x) = x` for every byte sequence; the
output of `str_to_hex` is always valid input to `hex_to_str` (even length,
all hex digits); and for every even-length all-hex-digit string `h`,
`str_to_hex (hex_to_str h)` is `h` uppercased (case normalization). -/
theorem c7_hex_round_trip :
    (∀ x : Bytes, (∀ b ∈ x, b < 256) → hex_to_str (str_to_hex x) = x) ∧
    (∀ x : Bytes, (∀ b ∈ x, b < 256) →
      (str_to_hex x).length % 2 = 0 ∧ (str_to_hex x).all isHexDigitByte = true) ∧
    (∀ h : Bytes, h.length % 2 = 0 → (∀ c ∈ h, isHexDigitByte c = true) →
      str_to_hex (hex_to_str h) = h.map toUpperByte) :=
  ⟨fun _ hx => hex_to_str_str_to_hex hx,
   fun x _ => ⟨by rw [str_to_hex_length]; omega, str_to_hex_all_hex (by assumption)⟩,
   fun _ he hx => str_to_hex_hex_to_str he hx⟩

/-- C7 witness at the concrete byte sequence `[0, 171, 255]` and the
concrete hex string `"0aFf"`. -/
theorem c7_witness :
    hex_to_str (str_to_hex [0, 171, 255]) = [0, 171, 255] ∧
    str_to_hex (hex_to_str (bytes "0aFf")) = (bytes "0aFf").map toUpperByte :=
  ⟨c7_hex_round_trip.1 [0, 171, 255] (by decide),
   c7_hex_round_trip.2.2 (bytes "0aFf") (by decide) (by decide)⟩

/-- C10: `set_data` stores the uppercase hex encoding of the input and
`get_data` decodes it back losslessly, for every byte string including the
empty one. -/
theorem c10_set_data_get_data (c : CCertificate) (d : Bytes)
    (hd : ∀ b ∈ d, b < 256) :
    get_data (set_data c d) = d ∧ (set_data c d).data_ = str_to_hex d :=
  ⟨hex_to_str_str_to_hex hd, rfl⟩

/-- C10 witness at the concrete data `"hello"` (and, via the theorem's
quantifier, the default-constructed certificate). -/
theorem c10_witness :
    get_data (set_data CCertificate.init (bytes "hello")) = bytes "hello" ∧
    (set_data CCertificate.init (bytes "hello")).data_ = str_to_hex (bytes "hello") :=
  c10_set_data_get_data CCertificate.init (bytes "hello") (by decide)

/-! ## Claim C2: the transaction-ID construction -/

theorem flatMap_singleton_of {f : Nat → Bytes} :
    ∀ l : Bytes, (∀ c ∈ l, f c = [c]) → l.flatMap f = l := by
  intro l h
  induction l with
  | nil => rfl
  | cons c rest ih =>
    rw [List.flatMap_cons, h c (by simp), ih fun x hx => h x (by simp [hx])]
    rfl

theorem escapeByte_of_range {c : Nat}
    (h : (48 ≤ c ∧ c ≤ 57) ∨ (65 ≤ c ∧ c ≤ 70)) : escapeByte c = [c] := by
  unfold escapeByte
  repeat rw [if_neg (by omega)]

theorem escapeBytes_str_to_hex {x : Bytes} (hx : ∀ b ∈ x, b < 256) :
    escapeBytes (str_to_hex x) = str_to_hex x :=
  flatMap_singleton_of _ fun c hc =>
    escapeByte_of_range (mem_str_to_hex_range hx c hc)

/-- Dump of the certificate payload object with an escape-free `Data`
value: exactly the flat JSON text the spec describes. -/
theorem dump_payload_eq {X : Bytes} (hX : escapeBytes X = X) :
    Json.dump (Json.obj [(bytes "Action", .str (bytes "CP_CERTIFICATE")),
        (bytes "Data", .str X)]) =
      bytes "\x7b\"Action\":\"CP_CERTIFICATE\",\"Data\":\"" ++ X ++ bytes "\"\x7d" := by
  have e1 : escapeBytes (bytes "Action") = bytes "Action" := by decide
  have e2 : escapeBytes (bytes "CP_CERTIFICATE") = bytes "CP_CERTIFICATE" := by decide
  have e3 : escapeBytes (bytes "Data") = bytes "Data" := by decide
  have hsplit : bytes "\x7b\"Action\":\"CP_CERTIFICATE\",\"Data\":\"" =
      [123, 34] ++ bytes "Action" ++ [34, 58, 34] ++ bytes "CP_CERTIFICATE" ++
        [34, 44, 34] ++ bytes "Data" ++ [34, 58, 34] := by decide
  have hend : bytes "\"\x7d" = [34, 125] := by decide
  simp only [Json.dump, Json.dumpFields, e1, e2, e3, hX, hsplit, hend,
    List.cons_append, List.append_assoc, List.nil_append]

/-- The payload hex built by `submit_certificate` coincides with the
spec-side double encoding. -/
theorem certificate_payload_eq_spec {pdata : Bytes} (hp : ∀ b ∈ pdata, b < 256) :
    certificate_payload pdata = spec_payload_hex pdata := by
  unfold certificate_payload spec_payload_hex payloadObject
  rw [dump_payload_eq (escapeBytes_str_to_hex hp)]

theorem hexDigitLower_range {n : Nat} (hn : n < 16) :
    (48 ≤ hexDigitLower n ∧ hexDigitLower n ≤ 57) ∨
      (97 ≤ hexDigitLower n ∧ hexDigitLower n ≤ 102) := by
  unfold hexDigitLower
  split <;> omega

theorem mem_bytes_to_hex_range {x : Bytes} (hx : ∀ b ∈ x, b < 256) :
    ∀ c ∈ bytes_to_hex x,
      (48 ≤ c ∧ c ≤ 57) ∨ (97 ≤ c ∧ c ≤ 102) := by
  intro c hc
  unfold bytes_to_hex at hc
  rcases List.mem_flatMap.mp hc with ⟨b, hb, hcb⟩
  have hb256 := hx b hb
  have h1 : b / 16 < 16 := by omega
  have h2 : b % 16 < 16 := Nat.mod_lt _ (by omega)
  simp only [List.mem_cons, List.mem_singleton] at hcb
  rcases hcb with h | h | h
  · rw [h]; exact hexDigitLower_range h1
  · rw [h]; exact hexDigitLower_range h2
  · simp at h

/-- C2: for every crypto backend, account state, certificate data and
timestamp, the transaction ID computed inside `submit_certificate` equals
the spec-side construction: lowercase hex digest of
`hexfix(blockchain) || hexfix(address) || hexfix(address) || payload_hex ||
decimal(nonce) || timestamp`, with `payload_hex` the hex encoding of the
JSON serialization of `{ Action: "CP_CERTIFICATE", Data: hex(data) }`
(double encoding).  Determinism is inherent: the ID is a pure function of
`(data, nonce, timestamp, address, blockchain)` and the digest function.
The second conjunct confirms the "lowercase hex" claim: every character of
the ID is a lowercase hex digit. -/
theorem c2_transaction_id (C : Crypto) (st : CepAccount) (pdata ts : Bytes)
    (hp : ∀ b ∈ pdata, b < 256) :
    computeTxId C st pdata ts =
      spec_tx_id C.sha256 st.blockchain st.address pdata st.nonce ts ∧
    ((∀ b ∈ C.sha256 (str_to_hash st pdata ts), b < 256) →
      ∀ c ∈ computeTxId C st pdata ts,
        (48 ≤ c ∧ c ≤ 57) ∨ (97 ≤ c ∧ c ≤ 102)) := by
  constructor
  · unfold computeTxId spec_tx_id str_to_hash
    rw [certificate_payload_eq_spec hp]
  · intro hsha c hc
    exact mem_bytes_to_hex_range hsha c hc

/-- C2 witness at a concrete crypto backend, account, data and
timestamp. -/
theorem c2_witness :
    computeTxId sampleCrypto sampleAccount (bytes "hi") (bytes "2025:01:01-00:00:00") =
      spec_tx_id sampleCrypto.sha256 sampleAccount.blockchain sampleAccount.address
        (bytes "hi") sampleAccount.nonce (bytes "2025:01:01-00:00:00") :=
  (c2_transaction_id sampleCrypto sampleAccount (bytes "hi")
    (bytes "2025:01:01-00:00:00") (by decide)).1

/-! ## Claim C4: what `close` resets -/

/-- C4 counterexample: `close` leaves the discovery `network_url` and the
last-error slot untouched, so not every field other than `code_version` is
reset to its empty/zero default.  Shown on the default-constructed account
with a recorded error. -/
theorem c4_close_keeps_network_url_and_last_error :
    (close { CepAccount.init with last_error := some (bytes "boom") }).network_url ≠ [] ∧
    (close { CepAccount.init with last_error := some (bytes "boom") }).last_error ≠ none := by
  exact ⟨by decide, by decide⟩

/-- C4 (amended): `close` resets `address`, `public_key`, `info`,
`nag_url`, `network_node`, `blockchain`, `latest_tx_id` to empty and
`nonce`, `interval_sec` to 0, for every prior state — but it leaves
`code_version`, `network_url` and `last_error` unchanged. -/
theorem c4_close_resets (st : CepAccount) :
    (close st).address = [] ∧ (close st).public_key = [] ∧
    (close st).info = none ∧ (close st).nag_url = [] ∧
    (close st).network_node = [] ∧ (close st).blockchain = [] ∧
    (close st).latest_tx_id = [] ∧ (close st).nonce = 0 ∧
    (close st).interval_sec = 0 ∧ (close st).code_version = st.code_version ∧
    (close st).network_url = st.network_url ∧
    (close st).last_error = st.last_error :=
  ⟨rfl, rfl, rfl, rfl, rfl, rfl, rfl, rfl, rfl, rfl, rfl, rfl⟩

/-! ## Claim C5: failing operations and the `last_error` slot -/

/-- C5 failing input: `submit_certificate` on an open account, with a key
that signs successfully, receiving the well-formed-transport but
`Result`-less gateway response `{}`: it returns `false` yet leaves
`last_error` exactly as it was (`none` here), contradicting the error
propagation policy (src/cep_account.cpp:383 returns without setting
`last_error_`, unlike the analogous branch of `update_account`). -/
theorem c5_submit_missing_result_skips_last_error :
    (submit_certificate sampleCrypto (bytes "2025:01:01-00:00:00") sampleAccount
      (bytes "hi") zeroKey (.ok (.obj []))).2 = false ∧
    (submit_certificate sampleCrypto (bytes "2025:01:01-00:00:00") sampleAccount
      (bytes "hi") zeroKey (.ok (.obj []))).1.last_error = sampleAccount.last_error ∧
    sampleAccount.last_error = none :=
  ⟨rfl, rfl, rfl⟩

/-! ## Claim C8: `update_account` response mapping -/

/-- C8: `update_account` interprets the gateway response exactly as
specified.  (a) With an empty address it fails with the account-not-open
error without consulting the response at all (response independence models
"no network call").  With a non-empty address: (b) a transport error is
stored verbatim in `last_error`; (c) `Result = 200` with an integer
`Response.Nonce` stores `nonce = Nonce + 1` and succeeds; (d) `Result =
200` without an integer `Response.Nonce` is a malformed-response error;
(e) `114` maps to the invalid-blockchain error; (f) `115` to the
insufficient-balance error; (g) any other code to the unknown-rejection
error carrying the response text when `Response` is a string, (h) or a
generic unknown-rejection text otherwise; (i) a missing or non-integer
`Result` is a malformed-response error; and (j) every failing outcome
leaves `nonce` unchanged and sets `last_error`. -/
theorem c8_update_account_mapping (st : CepAccount) (resp : Except Bytes Json) :
    (st.address = [] →
      (∀ resp', update_account st resp = update_account st resp') ∧
      update_account st resp =
        ({ st with last_error := some (bytes "Account not open") }, false)) ∧
    (st.address ≠ [] → ∀ e, resp = .error e →
      update_account st resp = ({ st with last_error := some e }, false)) ∧
    (st.address ≠ [] → ∀ data, resp = .ok data →
      data.containsKey (bytes "Result") = true →
      (data.get (bytes "Result")).isInt = true →
      wrap32 (data.get (bytes "Result")).getInt = 200 →
      data.containsKey (bytes "Response") = true →
      (data.get (bytes "Response")).containsKey (bytes "Nonce") = true →
      ((data.get (bytes "Response")).get (bytes "Nonce")).isInt = true →
      update_account st resp =
        ({ st with
            nonce := ((data.get (bytes "Response")).get (bytes "Nonce")).getInt + 1 },
          true)) ∧
    (st.address ≠ [] → ∀ data, resp = .ok data →
      data.containsKey (bytes "Result") = true →
      (data.get (bytes "Result")).isInt = true →
      wrap32 (data.get (bytes "Result")).getInt = 200 →
      ¬(data.containsKey (bytes "Response") = true ∧
        (data.get (bytes "Response")).containsKey (bytes "Nonce") = true ∧
        ((data.get (bytes "Response")).get (bytes "Nonce")).isInt = true) →
      update_account st resp =
        ({ st with last_error := some (bytes "failed to decode nonce response") }, false)) ∧
    (st.address ≠ [] → ∀ data, resp = .ok data →
      data.containsKey (bytes "Result") = true →
      (data.get (bytes "Result")).isInt = true →
      wrap32 (data.get (bytes "Result")).getInt = 114 →
      update_account st resp =
        ({ st with last_error := some (bytes "Rejected: Invalid Blockchain") }, false)) ∧
    (st.address ≠ [] → ∀ data, resp = .ok data →
      data.containsKey (bytes "Result") = true →
      (data.get (bytes "Result")).isInt = true →
      wrap32 (data.get (bytes "Result")).getInt = 115 →
      update_account st resp =
        ({ st with last_error := some (bytes "Rejected: Insufficient balance") }, false)) ∧
    (st.address ≠ [] → ∀ data, resp = .ok data →
      data.containsKey (bytes "Result") = true →
      (data.get (bytes "Result")).isInt = true →
      wrap32 (data.get (bytes "Result")).getInt ≠ 200 →
      wrap32 (data.get (bytes "Result")).getInt ≠ 114 →
      wrap32 (data.get (bytes "Result")).getInt ≠ 115 →
      data.containsKey (bytes "Response") = true →
      (data.get (bytes "Response")).isStr = true →
      update_account st resp =
        ({ st with
            last_error := some
              (bytes "failed to update account: " ++
                (data.get (bytes "Response")).getStr) },
          false)) ∧
    (st.address ≠ [] → ∀ data, resp = .ok data →
      data.containsKey (bytes "Result") = true →
      (data.get (bytes "Result")).isInt = true →
      wrap32 (data.get (bytes "Result")).getInt ≠ 200 →
      wrap32 (data.get (bytes "Result")).getInt ≠ 114 →
      wrap32 (data.get (bytes "Result")).getInt ≠ 115 →
      ¬(data.containsKey (bytes "Response") = true ∧
        (data.get (bytes "Response")).isStr = true) →
      update_account st resp =
        ({ st with
            last_error := some (bytes "failed to update account: unknown error response") },
          false)) ∧
    (st.address ≠ [] → ∀ data, resp = .ok data →
      ¬(data.containsKey (bytes "Result") = true ∧
        (data.get (bytes "Result")).isInt = true) →
      update_account st resp =
        ({ st with last_error := some (bytes "failed to get result from response") }, false)) ∧
    ((update_account st resp).2 = false →
      (update_account st resp).1.nonce = st.nonce ∧
      ∃ m, (update_account st resp).1.last_error = some m) := by
  refine ⟨?_, ?_, ?_, ?_, ?_, ?_, ?_, ?_, ?_, ?_⟩
  · intro haddr
    exact ⟨fun resp' => by unfold update_account; rw [if_pos haddr, if_pos haddr],
      by unfold update_account; rw [if_pos haddr]⟩
  · intro haddr e hresp
    subst hresp
    unfold update_account
    rw [if_neg haddr]
  · intro haddr data hresp h1 h2 h3 h4 h5 h6
    subst hresp
    unfold update_account
    rw [if_neg haddr]
    show (if _ && _ then _ else _) = _
    rw [if_pos (by simp [h1, h2]), if_pos h3, if_pos (by simp [h4, h5, h6])]
  · intro haddr data hresp h1 h2 h3 hmal
    subst hresp
    unfold update_account
    rw [if_neg haddr]
    show (if _ && _ then _ else _) = _
    rw [if_pos (by simp [h1, h2]), if_pos h3, if_neg (by simpa using hmal)]
  · intro haddr data hresp h1 h2 h3
    subst hresp
    unfold update_account
    rw [if_neg haddr]
    show (if _ && _ then _ else _) = _
    rw [if_pos (by simp [h1, h2]), if_neg (by omega), if_pos h3]
  · intro haddr data hresp h1 h2 h3
    subst hresp
    unfold update_account
    rw [if_neg haddr]
    show (if _ && _ then _ else _) = _
    rw [if_pos (by simp [h1, h2]), if_neg (by omega), if_neg (by omega), if_pos h3]
  · intro haddr data hresp h1 h2 h200 h114 h115 hr hs
    subst hresp
    unfold update_account
    rw [if_neg haddr]
    show (if _ && _ then _ else _) = _
    rw [if_pos (by simp [h1, h2]), if_neg h200, if_neg h114, if_neg h115,
      if_pos (by simp [hr, hs])]
  · intro haddr data hresp h1 h2 h200 h114 h115 hmal
    subst hresp
    unfold update_account
    rw [if_neg haddr]
    show (if _ && _ then _ else _) = _
    rw [if_pos (by simp [h1, h2]), if_neg h200, if_neg h114, if_neg h115,
      if_neg (by simpa using hmal)]
  · intro haddr data hresp hmal
    subst hresp
    unfold update_account
    rw [if_neg haddr]
    show (if _ && _ then _ else _) = _
    rw [if_neg (by simpa using hmal)]
  · unfold update_account
    repeat' split
    all_goals
      first
        | (intro _; exact ⟨rfl, _, rfl⟩)
        | (intro h; exact absurd h (by simp))

/-- C8 witness: a concrete successful nonce sync (open account, response
`Result = 200`, integer `Response.Nonce = 7`). -/
theorem c8_witness :
    update_account sampleAccount
      (.ok (.obj [(bytes "Response", .obj [(bytes "Nonce", .int 7)]),
                  (bytes "Result", .int 200)])) =
      ({ sampleAccount with
          nonce :=
            (((Json.obj [(bytes "Response", .obj [(bytes "Nonce", .int 7)]),
                (bytes "Result", .int 200)]).get (bytes "Response")).get
              (bytes "Nonce")).getInt + 1 },
        true) :=
  (c8_update_account_mapping sampleAccount
      (.ok (.obj [(bytes "Response", .obj [(bytes "Nonce", .int 7)]),
                  (bytes "Result", .int 200)]))).2.2.1
    (by decide) _ rfl rfl rfl (by decide) rfl rfl rfl

/-! ## Claim C9: the outcome-polling loop -/

/-- A successful `pollCheck` pins down exactly the conditions the source
tests: integer `Result` equal to 200 and a string `Response.Status`
different from `"Pending"`; the returned value is the `Response` object. -/
theorem pollCheck_some {data j : Json} (h : pollCheck data = some j) :
    data.containsKey (bytes "Result") = true ∧
    (data.get (bytes "Result")).isInt = true ∧
    wrap32 (data.get (bytes "Result")).getInt = 200 ∧
    data.containsKey (bytes "Response") = true ∧
    (data.get (bytes "Response")).containsKey (bytes "Status") = true ∧
    ((data.get (bytes "Response")).get (bytes "Status")).isStr = true ∧
    ((data.get (bytes "Response")).get (bytes "Status")).getStr ≠ bytes "Pending" ∧
    j = data.get (bytes "Response") := by
  unfold pollCheck at h
  split at h <;> rename_i h1
  · split at h <;> rename_i h2
    · split at h <;> rename_i h3
      · split at h <;> rename_i h4
        · split at h <;> rename_i h5
          · simp only [Bool.and_eq_true] at h1 h4
            exact ⟨h1.1, h1.2, h2, h3, h4.1, h4.2, h5, (Option.some.inj h).symm⟩
          · cases h
        · cases h
      · cases h
    · cases h
  · cases h

theorem outcomeLoop_success {st : CepAccount} {timeout : Int}
    (hnag : st.nag_url ≠ []) :
    ∀ (polls : List (Int × Except Bytes Json)) (st' : CepAccount) (j : Json),
      outcomeLoop st timeout polls = (st', .success j) →
      ∃ t r data, (t, r) ∈ polls ∧ t ≤ timeout ∧ r = .ok data ∧
        pollCheck data = some j ∧ st' = st := by
  intro polls
  induction polls with
  | nil =>
    intro st' j h
    unfold outcomeLoop at h
    exact absurd (congrArg Prod.snd h) (by simp)
  | cons p rest ih =>
    obtain ⟨t, r⟩ := p
    intro st' j h
    unfold outcomeLoop at h
    split at h <;> rename_i htime
    · exact absurd (congrArg Prod.snd h) (by simp)
    · split at h
      · rename_i data heq
        unfold get_transaction_by_id at heq
        rw [if_neg hnag] at heq
        split at h
        · rename_i response hpc
          have h1 := congrArg Prod.fst h
          have h2 := congrArg Prod.snd h
          simp only [] at h1
          simp only [PollExit.success.injEq] at h2
          exact ⟨t, r, data, List.mem_cons_self _ _, by omega, heq,
            by rw [hpc, h2], h1.symm⟩
        · obtain ⟨t', r', data', hmem, ht', hr', hpc', hst⟩ := ih st' j h
          exact ⟨t', r', data', List.mem_cons_of_mem _ hmem, ht', hr', hpc', hst⟩
      · obtain ⟨t', r', data', hmem, ht', hr', hpc', hst⟩ := ih st' j h
        exact ⟨t', r', data', List.mem_cons_of_mem _ hmem, ht', hr', hpc', hst⟩

theorem outcomeLoop_timedOut {st : CepAccount} {timeout : Int} :
    ∀ (polls : List (Int × Except Bytes Json)) (st' : CepAccount),
      outcomeLoop st timeout polls = (st', .timedOut) →
      (∃ t r, (t, r) ∈ polls ∧ timeout < t) ∧
      st'.last_error =
        some (bytes "timeout exceeded while waiting for transaction outcome") := by
  intro polls
  induction polls with
  | nil =>
    intro st' h
    unfold outcomeLoop at h
    exact absurd (congrArg Prod.snd h) (by simp)
  | cons p rest ih =>
    obtain ⟨t, r⟩ := p
    intro st' h
    unfold outcomeLoop at h
    split at h <;> rename_i htime
    · have h1 := congrArg Prod.fst h
      simp only [] at h1
      refine ⟨⟨t, r, List.mem_cons_self _ _, htime⟩, ?_⟩
      rw [← h1]
    · split at h
      · split at h
        · exact absurd (congrArg Prod.snd h) (by simp)
        · obtain ⟨⟨t', r', hmem, ht'⟩, hle⟩ := ih st' h
          exact ⟨⟨t', r', List.mem_cons_of_mem _ hmem, ht'⟩, hle⟩
      · obtain ⟨⟨t', r', hmem, ht'⟩, hle⟩ := ih st' h
        exact ⟨⟨t', r', List.mem_cons_of_mem _ hmem, ht'⟩, hle⟩

theorem outcomeLoop_all_errors {st : CepAccount} {timeout : Int}
    (hnag : st.nag_url ≠ []) :
    ∀ polls : List (Int × Except Bytes Json),
      (∀ p ∈ polls, p.1 ≤ timeout ∧ ∃ e, p.2 = .error e) →
      outcomeLoop st timeout polls = (st, .exhausted) := by
  intro polls
  induction polls with
  | nil => intro _; rfl
  | cons p rest ih =>
    obtain ⟨t, r⟩ := p
    intro hall
    obtain ⟨ht, e, he⟩ := hall (t, r) (List.mem_cons_self _ _)
    subst he
    unfold outcomeLoop
    rw [if_neg (by simp only [] at ht ⊢; omega)]
    have hid : get_transaction_by_id st (.error e) = .error e := by
      unfold get_transaction_by_id
      rw [if_neg hnag]
    rw [hid]
    exact ih fun p hp => hall p (List.mem_cons_of_mem _ hp)

/-- C9: `get_transaction_outcome` with an empty `nag_url` fails
immediately with the network-not-set error, independent of the polls.
With a non-empty `nag_url`: it returns a `Response` object only when some
poll at elapsed time within `timeout` answered with integer `Result = 200`
and a string `Response.Status` different from `"Pending"` (and the
returned object is that poll's `Response`, the state otherwise untouched);
it exits with the poll-timeout failure only once some iteration starts
after `timeout` has elapsed; and a trace consisting solely of
transport/decode errors within the timeout never terminates the loop
(the modelled run consumes every poll and is still going). -/
theorem c9_get_transaction_outcome_polling (st : CepAccount) (timeout : Int)
    (polls : List (Int × Except Bytes Json)) :
    (st.nag_url = [] →
      get_transaction_outcome st timeout polls =
        ({ st with last_error := some (bytes "network is not set") }, .noNetwork)) ∧
    (st.nag_url ≠ [] →
      (∀ st' j, get_transaction_outcome st timeout polls = (st', .success j) →
        ∃ t r data, (t, r) ∈ polls ∧ t ≤ timeout ∧ r = .ok data ∧
          data.containsKey (bytes "Result") = true ∧
          (data.get (bytes "Result")).isInt = true ∧
          wrap32 (data.get (bytes "Result")).getInt = 200 ∧
          data.containsKey (bytes "Response") = true ∧
          (data.get (bytes "Response")).containsKey (bytes "Status") = true ∧
          ((data.get (bytes "Response")).get (bytes "Status")).isStr = true ∧
          ((data.get (bytes "Response")).get (bytes "Status")).getStr ≠
            bytes "Pending" ∧
          j = data.get (bytes "Response") ∧ st' = st) ∧
      (∀ st', get_transaction_outcome st timeout polls = (st', .timedOut) →
        (∃ t r, (t, r) ∈ polls ∧ timeout < t) ∧
        st'.last_error =
          some (bytes "timeout exceeded while waiting for transaction outcome")) ∧
      ((∀ p ∈ polls, p.1 ≤ timeout ∧ ∃ e, p.2 = .error e) →
        get_transaction_outcome st timeout polls = (st, .exhausted))) := by
  constructor
  · intro hnag
    unfold get_transaction_outcome
    rw [if_pos hnag]
  · intro hnag
    have hout : get_transaction_outcome st timeout polls =
        outcomeLoop st timeout polls := by
      unfold get_transaction_outcome
      rw [if_neg hnag]
    refine ⟨?_, ?_, ?_⟩
    · intro st' j h
      rw [hout] at h
      obtain ⟨t, r, data, hmem, ht, hr, hpc, hst⟩ :=
        outcomeLoop_success hnag polls st' j h
      obtain ⟨p1, p2, p3, p4, p5, p6, p7, p8⟩ := pollCheck_some hpc
      exact ⟨t, r, data, hmem, ht, hr, p1, p2, p3, p4, p5, p6, p7, p8, hst⟩
    · intro st' h
      rw [hout] at h
      exact outcomeLoop_timedOut polls st' h
    · intro hall
      rw [hout]
      exact outcomeLoop_all_errors hnag polls hall

/-- C9 witness: a concrete all-errors-within-timeout trace on a bound
account — the loop consumes every poll without terminating early. -/
theorem c9_witness :
    get_transaction_outcome sampleAccount 10 [(5, .error (bytes "boom"))] =
      (sampleAccount, .exhausted) :=
  ((c9_get_transaction_outcome_polling sampleAccount 10
      [(5, .error (bytes "boom"))]).2 (by decide)).2.2
    (fun p hp => by
      rw [List.mem_singleton] at hp
      subst hp
      exact ⟨by decide, ⟨bytes "boom", rfl⟩⟩)

/-! ## Claim C3: nonce monotonicity across operations -/

theorem outcomeLoop_fst_nonce (st : CepAccount) (timeout : Int) :
    ∀ polls : List (Int × Except Bytes Json),
      ((outcomeLoop st timeout polls).1).nonce = st.nonce := by
  intro polls
  induction polls with
  | nil => rfl
  | cons p rest ih =>
    obtain ⟨t, r⟩ := p
    unfold outcomeLoop
    split
    · rfl
    · split
      · split
        · rfl
        · exact ih
      · exact ih

/-- Every operation other than `update_account` never decreases the
nonce. -/
theorem step_nonce_mono (C : Crypto) (ts : Bytes) (st : CepAccount)
    (op : AccOp) (hop : ∀ r, op ≠ AccOp.updateAccount r) :
    st.nonce ≤ (step C ts st op).nonce := by
  cases op with
  | openA addr =>
    simp only [step]
    unfold open_account
    split <;> exact Int.le_refl _
  | setNetwork network r =>
    simp only [step]
    unfold set_network
    split <;> exact Int.le_refl _
  | updateAccount resp => exact absurd rfl (hop resp)
  | submitCert pdata key resp =>
    simp only [step]
    unfold submit_certificate
    repeat' split
    all_goals first
      | exact Int.le_refl _
      | exact Int.le.intro 1 rfl
  | getTx b resp =>
    simp only [step]
    unfold get_transaction
    repeat' split
    all_goals exact Int.le_refl _
  | getOutcome t polls =>
    simp only [step]
    unfold get_transaction_outcome
    split
    · exact Int.le_refl _
    · exact le_of_eq (outcomeLoop_fst_nonce st t polls).symm

/-- C3 counterexample: `update_account` stores `server Nonce + 1`
unconditionally, so a gateway response reporting a smaller nonce makes the
stored nonce decrease — here from 5 down to 1. -/
theorem c3_nonce_can_decrease :
    (step sampleCrypto (bytes "2025:01:01-00:00:00")
        { sampleAccount with nonce := 5 }
        (.updateAccount (.ok (.obj
          [(bytes "Response", .obj [(bytes "Nonce", .int 0)]),
           (bytes "Result", .int 200)])))).nonce <
      ({ sampleAccount with nonce := 5 } : CepAccount).nonce := by decide

/-- C3 (amended): the nonce is monotonically non-decreasing under every
listed operation except `update_account` (also along whole sequences free
of `update_account`), and it strictly increases only from a
server-confirmed acknowledgment: either a `Result = 200` submission
acknowledgment (advancing by exactly 1) or a `Result = 200` nonce-query
response (which stores `Response.Nonce + 1` and may equally decrease). -/
theorem c3_nonce_monotonicity (C : Crypto) (ts : Bytes) :
    (∀ (st : CepAccount) (op : AccOp), (∀ r, op ≠ AccOp.updateAccount r) →
      st.nonce ≤ (step C ts st op).nonce) ∧
    (∀ (st : CepAccount) (op : AccOp), st.nonce < (step C ts st op).nonce →
      (∃ pdata key data, op = AccOp.submitCert pdata key (.ok data) ∧
        data.containsKey (bytes "Result") = true ∧
        (data.get (bytes "Result")).isInt = true ∧
        wrap32 (data.get (bytes "Result")).getInt = 200 ∧
        (step C ts st op).nonce = st.nonce + 1) ∨
      (∃ data, op = AccOp.updateAccount (.ok data) ∧
        data.containsKey (bytes "Result") = true ∧
        (data.get (bytes "Result")).isInt = true ∧
        wrap32 (data.get (bytes "Result")).getInt = 200 ∧
        data.containsKey (bytes "Response") = true ∧
        (data.get (bytes "Response")).containsKey (bytes "Nonce") = true ∧
        ((data.get (bytes "Response")).get (bytes "Nonce")).isInt = true ∧
        (step C ts st op).nonce =
          ((data.get (bytes "Response")).get (bytes "Nonce")).getInt + 1)) ∧
    (∀ (st : CepAccount) (ops : List AccOp),
      (∀ op ∈ ops, ∀ r, op ≠ AccOp.updateAccount r) →
      st.nonce ≤ (runOps C ts st ops).nonce) := by
  refine ⟨step_nonce_mono C ts, ?_, ?_⟩
  · intro st op
    cases op with
    | openA addr =>
      simp only [step]
      unfold open_account
      split
      all_goals intro hlt
      all_goals exact absurd hlt (lt_irrefl _)
    | setNetwork network r =>
      simp only [step]
      unfold set_network
      split
      all_goals intro hlt
      all_goals exact absurd hlt (lt_irrefl _)
    | updateAccount resp =>
      simp only [step]
      unfold update_account
      split
      · intro hlt; exact absurd hlt (lt_irrefl _)
      · split
        · intro hlt; exact absurd hlt (lt_irrefl _)
        · split <;> rename_i h1
          · split <;> rename_i h2
            · split <;> rename_i h3
              · intro _
                right
                simp only [Bool.and_eq_true] at h1 h3
                exact ⟨_, rfl, h1.1, h1.2, h2, h3.1.1, h3.1.2, h3.2, rfl⟩
              · intro hlt; exact absurd hlt (lt_irrefl _)
            · repeat' split
              all_goals intro hlt
              all_goals exact absurd hlt (lt_irrefl _)
          · intro hlt; exact absurd hlt (lt_irrefl _)
    | submitCert pdata key resp =>
      simp only [step]
      unfold submit_certificate
      split
      · intro hlt; exact absurd hlt (lt_irrefl _)
      · split
        · intro hlt; exact absurd hlt (lt_irrefl _)
        · split
          · intro hlt; exact absurd hlt (lt_irrefl _)
          · split <;> rename_i h1
            · split <;> rename_i h2
              · intro _
                left
                simp only [Bool.and_eq_true] at h1
                exact ⟨pdata, key, _, rfl, h1.1, h1.2, h2, rfl⟩
              · repeat' split
                all_goals intro hlt
                all_goals exact absurd hlt (lt_irrefl _)
            · intro hlt; exact absurd hlt (lt_irrefl _)
    | getTx b resp =>
      simp only [step]
      unfold get_transaction
      repeat' split
      all_goals intro hlt
      all_goals exact absurd hlt (lt_irrefl _)
    | getOutcome t polls =>
      simp only [step]
      unfold get_transaction_outcome
      split
      · intro hlt; exact absurd hlt (lt_irrefl _)
      · rw [outcomeLoop_fst_nonce st t polls]
        intro hlt
        exact absurd hlt (lt_irrefl _)
  · intro st ops hops
    induction ops generalizing st with
    | nil => exact Int.le_refl _
    | cons op rest ih =>
      have h1 : st.nonce ≤ (step C ts st op).nonce :=
        step_nonce_mono C ts st op (hops op (List.mem_cons_self _ _))
      have h2 : (step C ts st op).nonce ≤ (runOps C ts (step C ts st op) rest).nonce :=
        ih _ fun o ho => hops o (List.mem_cons_of_mem _ ho)
      exact le_trans h1 h2

/-- C3 amended-claim witness: a concrete `update_account`-free sequence
(open, then a successful submission) never decreases the nonce. -/
theorem c3_witness :
    sampleAccount.nonce ≤
      (runOps sampleCrypto (bytes "2025:01:01-00:00:00") sampleAccount
        [AccOp.openA (bytes "0xdef"),
         AccOp.submitCert (bytes "hi") zeroKey
           (.ok (.obj [(bytes "Result", .int 200)]))]).nonce :=
  (c3_nonce_monotonicity sampleCrypto (bytes "2025:01:01-00:00:00")).2.2 sampleAccount
    [AccOp.openA (bytes "0xdef"),
     AccOp.submitCert (bytes "hi") zeroKey (.ok (.obj [(bytes "Result", .int 200)]))]
    (fun op hop r => by
      rcases List.mem_cons.mp hop with h | h
      · subst h; exact fun hc => AccOp.noConfusion hc
      · rw [List.mem_singleton] at h
        subst h; exact fun hc => AccOp.noConfusion hc)

/-- C1: for every account state, certificate data, private key, timestamp,
crypto backend and gateway response: when `submit_certificate` returns
success, `nonce` has advanced by exactly 1 and `latest_tx_id` holds the
computed transaction ID; when it returns failure — account not open,
signing failure (including a key that does not decode to 32 bytes),
transport error, non-200 result, or a malformed response — both `nonce`
and `latest_tx_id` are unchanged. -/
theorem c1_submit_certificate_nonce_latest_tx (C : Crypto) (ts : Bytes)
    (st : CepAccount) (pdata private_key_hex : Bytes) (resp : Except Bytes Json) :
    ((submit_certificate C ts st pdata private_key_hex resp).2 = true →
      (submit_certificate C ts st pdata private_key_hex resp).1.nonce = st.nonce + 1 ∧
      (submit_certificate C ts st pdata private_key_hex resp).1.latest_tx_id =
        computeTxId C st pdata ts) ∧
    ((submit_certificate C ts st pdata private_key_hex resp).2 = false →
      (submit_certificate C ts st pdata private_key_hex resp).1.nonce = st.nonce ∧
      (submit_certificate C ts st pdata private_key_hex resp).1.latest_tx_id =
        st.latest_tx_id) := by
  unfold submit_certificate
  repeat' split
  all_goals
    first
      | exact ⟨fun _ => ⟨rfl, rfl⟩, fun h => by simp at h⟩
      | exact ⟨fun h => by simp at h, fun _ => ⟨rfl, rfl⟩⟩

/-- C1 witness: a concrete successful submission (open account, valid key,
gateway answers `Result = 200`). -/
theorem c1_witness :
    (submit_certificate sampleCrypto (bytes "2025:01:01-00:00:00") sampleAccount
      (bytes "hi") zeroKey (.ok (.obj [(bytes "Result", .int 200)]))).1.nonce =
      sampleAccount.nonce + 1 ∧
    (submit_certificate sampleCrypto (bytes "2025:01:01-00:00:00") sampleAccount
      (bytes "hi") zeroKey (.ok (.obj [(bytes "Result", .int 200)]))).1.latest_tx_id =
      computeTxId sampleCrypto sampleAccount (bytes "hi") (bytes "2025:01:01-00:00:00") :=
  (c1_submit_certificate_nonce_latest_tx sampleCrypto (bytes "2025:01:01-00:00:00")
    sampleAccount (bytes "hi") zeroKey (.ok (.obj [(bytes "Result", .int 200)]))).1 rfl
example : hex_fix (bytes "0xAB1") = bytes "0ab1" := by decide
example : hex_fix (bytes "x") = bytes "0x" := by decide
example : hex_fix (bytes "0x") = bytes "" := by decide
example : str_to_hex (bytes "ab") = bytes "6162" := by decide
example : hex_to_str (bytes "6162") = bytes "ab" := by decide
example : hex_to_str (bytes "616") = bytes "" := by decide
example : bytes_to_hex [0, 255] = bytes "00ff" := by decide
example : Json.dump (.obj [(bytes "A", .int 2), (bytes "B", .str (bytes "x"))]) =
    bytes "\x7b\"A\":2,\"B\":\"x\"\x7d" := by decide
example : wrap32 (2 ^ 32 + 200) = 200 := by decide
example : stoi16 (bytes "ff") = some 255 := by decide
example : stoi16 (bytes "5z") = some 5 := by decide
example : stoi16 (bytes "zz") = none := by decide
example : stoi16 (bytes "-1") = some (-1) := by decide
example : stoi16 (bytes "0x") = some 0 := by decide
example : stoll10 (bytes "42") = some 42 := by decide
example : stoll10 (bytes "abc") = none := by decide
example : hex_to_bytes (bytes "0xAB01") = some [171, 1] := by decide
example : hex_to_bytes (bytes "-1") = some [255] := by decide
example : hex_to_bytes (bytes "zz") = none := by decide
example : (hex_to_bytes (bytes (String.mk (List.replicate 64 '0')))).map
    List.length = some 32 := by decide

end Circular
